import Mathlib

/-!
Verification of the elliptic-curve plotting scripts.

The repository holds four standalone scripts that sample a rectangular
grid, evaluate the implicit elliptic residual y^2 - x^3 - a*x - b on it,
draw its zero contour, annotate explicit-branch points via np.sqrt, and
write the figure to fixed paths.  This file embeds the numeric core and
the output/title structure of each script:

  CTE    = cubic-to-elliptic-curve.py   (a=0, b=7, x_max=4, y_max=15)
  GridEC = plot-elliptic-curve-grid.py  (a,b grids, x_max=y_max=5)
  PEC    = plot-elliptic-curve.py       (a=0, b=7, x_max=9, y_max=15)
  PA     = point-addition.py            (a=-2, b=2, x_max=3, y_max=5)

Rationals model the exact arithmetic; np.sqrt is modelled over the reals,
with none standing for the NaN a negative radicand produces.
-/

namespace CurvePlots

/-- Sample i of numpy linspace(lo, hi, n), endpoints included:
lo + (hi - lo) * i / (n - 1). -/
def linspaceF (lo hi : ℚ) (n : ℕ) (i : ℕ) : ℚ :=
  lo + (hi - lo) * i / ((n : ℚ) - 1)

/-- numpy linspace(lo, hi, n) as a list.  np.ogrid[lo:hi:(n)j] produces
exactly these samples along one axis. -/
def linspace (lo hi : ℚ) (n : ℕ) : List ℚ :=
  (List.range n).map (linspaceF lo hi n)

/-- np.arange(start, stop, step) for a positive step:
ceil((stop - start) / step) samples start, start+step, start+2*step, .... -/
def arange (start stop step : ℚ) : List ℚ :=
  (List.range (Int.toNat (Int.ceil ((stop - start) / step)))).map
    (fun i => start + step * i)

/-- The implicit elliptic residual pow(y,2) - pow(x,3) - x*a - b computed
by every script. -/
def ellipticResidual (a b x y : ℚ) : ℚ := y ^ 2 - x ^ 3 - x * a - b

/-- numpy broadcasting of an elementwise expression over the ogrid output:
the column vector y (shape 100 x 1) and the row vector x (shape 1 x 100)
broadcast to the matrix whose row j, column i entry is f x_i y_j. -/
def surfaceGrid (f : ℚ → ℚ → ℚ) (xs ys : List ℚ) : List (List ℚ) :=
  ys.map (fun yv => xs.map (fun xv => f xv yv))

/-- Entry at row j (the y index), column i (the x index) of a surface;
0 when out of range. -/
def surfAt (s : List (List ℚ)) (i j : ℕ) : ℚ := (s.getD j []).getD i 0

/-- The radicand x^3 + a*x + b that CTE and PA pass to np.sqrt. -/
def radicand (a b x : ℚ) : ℚ := x ^ 3 + a * x + b

/-- np.sqrt on an exact rational scalar: NaN, modelled as none, for a
negative argument; the exact real square root otherwise. -/
noncomputable def npSqrt (r : ℚ) : Option ℝ :=
  if 0 ≤ r then some (Real.sqrt (r : ℝ)) else none

/-- The y-value of the upper explicit-branch marker:
elliptic_curve_points = np.sqrt(x_points**3 + a*x_points + b). -/
noncomputable def upperY (a b x : ℚ) : Option ℝ := npSqrt (radicand a b x)

/-- The y-value of the lower explicit-branch marker, the negation
-elliptic_curve_points[i] used in the annotate call; NaN stays NaN. -/
noncomputable def lowerY (a b x : ℚ) : Option ℝ :=
  Option.map (fun v => -v) (npSqrt (radicand a b x))

/-- The upper annotation markers (x_points[i], elliptic_curve_points[i]),
one per sample x, regardless of the radicand's sign. -/
noncomputable def upperMarkers (a b : ℚ) (xs : List ℚ) : List (ℚ × Option ℝ) :=
  xs.map (fun x => (x, upperY a b x))

/-- The lower annotation markers (x_points[i], -elliptic_curve_points[i]). -/
noncomputable def lowerMarkers (a b : ℚ) (xs : List ℚ) : List (ℚ × Option ℝ) :=
  xs.map (fun x => (x, lowerY a b x))

/-- One output call in a script's tail: plt.savefig(path) or plt.show(). -/
inductive OutputEvent where
  | saveFig : String → OutputEvent
  | display : OutputEvent
deriving DecidableEq

/-- The paths passed to plt.savefig, in call order. -/
def savedPaths (evts : List OutputEvent) : List String :=
  evts.filterMap (fun e =>
    match e with
    | OutputEvent.saveFig p => some p
    | OutputEvent.display => none)

/-- True when no savefig call happens after a plt.show call. -/
def savesBeforeDisplays : List OutputEvent → Bool
  | [] => true
  | OutputEvent.saveFig _ :: rest => savesBeforeDisplays rest
  | OutputEvent.display :: rest => rest.all (fun e => e == OutputEvent.display)

/-- sub occurs as a contiguous substring of t. -/
def containsStr (t sub : String) : Prop := sub.data <:+: t.data

instance (t sub : String) : Decidable (containsStr t sub) :=
  inferInstanceAs (Decidable (sub.data <:+: t.data))

/-- The f-string fragment for the ax term: "- {a}x" when a is nonzero,
the empty string otherwise. -/
def axTerm (a : ℤ) : String := if a ≠ 0 then "- " ++ toString a ++ "x" else ""

/-- Variant used by the elliptic title of CTE: " {a}x" when a is nonzero. -/
def axTermSpace (a : ℤ) : String := if a ≠ 0 then " " ++ toString a ++ "x" else ""

/-- The f-string fragment for the constant term: "- {b}" when b is nonzero. -/
def constTerm (b : ℤ) : String := if b ≠ 0 then "- " ++ toString b else ""

namespace CTE

def a : ℤ := 0
def b : ℤ := 7
def y_max : ℚ := 15
def x_max : ℚ := 4

/-- The x row vector of np.ogrid[-y_max:y_max:100j, -x_max:x_max:100j]. -/
def x : List ℚ := linspace (-x_max) x_max 100

/-- The y column vector of the same ogrid call. -/
def y : List ℚ := linspace (-y_max) y_max 100

/-- The elementwise expression of the array cubic_curve =
-y + pow(x, 3) + x * a + b. -/
def cubic_curve (q r xv yv : ℚ) : ℚ := -yv + xv ^ 3 + xv * q + r

/-- The elementwise expression of the array cubic_curve_neg =
y + pow(x, 3) + x * a + b. -/
def cubic_curve_neg (q r xv yv : ℚ) : ℚ := yv + xv ^ 3 + xv * q + r

/-- The array elliptic_curve = pow(y, 2) - pow(x, 3) - x * a - b. -/
def elliptic_curve : List (List ℚ) :=
  surfaceGrid (ellipticResidual (a : ℚ) (b : ℚ)) x y

/-- x_points = np.arange(-1.6, 2, 0.5). -/
def x_points : List ℚ := arange (-8/5) 2 (1/2)

/-- The f-string template of the first dynamically formatted title, for
the cubic, as a function of the coefficients. -/
def eq_title_cubicF (q r : ℤ) : String := "y = x^3 " ++ axTerm q ++ " " ++ constTerm r

/-- The first title with this script's hard-coded coefficients. -/
def eq_title_cubic : String := eq_title_cubicF a b

/-- The f-string template of the second dynamically formatted title, for
the elliptic curve. -/
def eq_titleF (q r : ℤ) : String := "y^2 = x^3 " ++ axTermSpace q ++ " " ++ constTerm r

/-- The second title with this script's hard-coded coefficients. -/
def eq_title : String := eq_titleF a b

/-- The strings passed to set_title, in call order ($-wrapped for TeX). -/
def titles : List String := ["$" ++ eq_title_cubic ++ "$", "$" ++ eq_title ++ "$"]

/-- The output calls: two savefig calls, then plt.show(). -/
def outputs : List OutputEvent :=
  [OutputEvent.saveFig "docs/images/cubic-to-elliptic.png",
   OutputEvent.saveFig "docs/images/cubic-to-elliptic.svg",
   OutputEvent.display]

end CTE

namespace GridEC

/-- a_values = np.linspace(-2, 1, 4). -/
def a_values : List ℚ := linspace (-2) 1 4

/-- b_values = np.linspace(-1, 2, 4). -/
def b_values : List ℚ := linspace (-1) 2 4

def y_max : ℚ := 5
def x_max : ℚ := 5

def x : List ℚ := linspace (-x_max) x_max 100
def y : List ℚ := linspace (-y_max) y_max 100

/-- The per-subplot array curve = pow(y, 2) - pow(x, 3) - x * a - b. -/
def curve (q r : ℚ) : List (List ℚ) := surfaceGrid (ellipticResidual q r) x y

/-- The column header title b={b:.0f}; the sampled b values are integral,
so the format prints the integer part exactly. -/
def colTitle (r : ℚ) : String := "b=" ++ toString r.num

/-- The row label a={a:.0f} (passed to set_ylabel, not set_title). -/
def rowLabel (q : ℚ) : String := "a=" ++ toString q.num

/-- The strings passed to set_title: one header per column. -/
def titles : List String := b_values.map colTitle

/-- The output calls: two savefig calls, then plt.show(). -/
def outputs : List OutputEvent :=
  [OutputEvent.saveFig "docs/images/elliptic_curves_grid.png",
   OutputEvent.saveFig "docs/images/elliptic_curves_grid.svg",
   OutputEvent.display]

end GridEC

namespace PEC

def a : ℤ := 0
def b : ℤ := 7
def y_max : ℚ := 15
def x_max : ℚ := 9

def x : List ℚ := linspace (-x_max) x_max 100
def y : List ℚ := linspace (-y_max) y_max 100

/-- The elementwise expression of cubic_curve = y - pow(x, 3) - x * a - b. -/
def cubic_curve (q r xv yv : ℚ) : ℚ := yv - xv ^ 3 - xv * q - r

/-- The elementwise expression of cubic_curve_neg =
-y - pow(x, 3) - x * a - b. -/
def cubic_curve_neg (q r xv yv : ℚ) : ℚ := -yv - xv ^ 3 - xv * q - r

/-- The array elliptic_curve = pow(y, 2) - pow(x, 3) - x * a - b. -/
def elliptic_curve : List (List ℚ) :=
  surfaceGrid (ellipticResidual (a : ℚ) (b : ℚ)) x y

/-- The f-string template of the ax1 title, for the cubic. -/
def eq_title_cubicF (q r : ℤ) : String := "y = x^3 " ++ axTerm q ++ " " ++ constTerm r

/-- The ax1 title with this script's hard-coded coefficients. -/
def eq_title_cubic : String := eq_title_cubicF a b

/-- The f-string template of the ax2 title, for the elliptic curve. -/
def eq_titleF (q r : ℤ) : String := "y^2 = x^3 " ++ axTerm q ++ " " ++ constTerm r

/-- The ax2 title with this script's hard-coded coefficients. -/
def eq_title : String := eq_titleF a b

/-- The strings passed to set_title, in call order. -/
def titles : List String := ["$" ++ eq_title_cubic ++ "$", "$" ++ eq_title ++ "$"]

/-- The output calls: two savefig calls, then plt.show(). -/
def outputs : List OutputEvent :=
  [OutputEvent.saveFig "docs/images/both_curves.png",
   OutputEvent.saveFig "docs/images/both_curves.svg",
   OutputEvent.display]

end PEC

namespace PA

def a : ℤ := -2
def b : ℤ := 2
def x_max : ℚ := 3
def y_max : ℚ := 5

def x : List ℚ := linspace (-x_max) x_max 100
def y : List ℚ := linspace (-y_max) y_max 100

/-- The array elliptic_curve = pow(y, 2) - pow(x, 3) - x * a - b. -/
def elliptic_curve : List (List ℚ) :=
  surfaceGrid (ellipticResidual (a : ℚ) (b : ℚ)) x y

/-- P = (-1, np.sqrt((-1) ** 3 + a * (-1) + b)). -/
noncomputable def P : ℚ × Option ℝ := (-1, npSqrt (radicand (a : ℚ) (b : ℚ) (-1)))

/-- Q = (2, np.sqrt(2 ** 3 + a * 2 + b)). -/
noncomputable def Q : ℚ × Option ℝ := (2, npSqrt (radicand (a : ℚ) (b : ℚ) 2))

/-- The single set_title call passes the static string, with no
coefficient formatting. -/
def titles : List String := ["Point addition"]

/-- Both savefig lines in this script are commented out, so the only
output call is plt.show(). -/
def outputs : List OutputEvent := [OutputEvent.display]

end PA

/-! Helper lemmas about the sampling and broadcasting combinators. -/

theorem linspace_length (lo hi : ℚ) (n : ℕ) : (linspace lo hi n).length = n := by
  simp [linspace]

theorem linspace_getD (lo hi : ℚ) (n i : ℕ) (h : i < n) :
    (linspace lo hi n).getD i 0 = lo + (hi - lo) * i / ((n : ℚ) - 1) := by
  rw [linspace, List.getD_eq_getElem?_getD, List.getElem?_map, List.getElem?_range h]
  rfl

theorem surfAt_surfaceGrid (f : ℚ → ℚ → ℚ) (xs ys : List ℚ) (i j : ℕ)
    (hi : i < xs.length) (hj : j < ys.length) :
    surfAt (surfaceGrid f xs ys) i j = f (xs.getD i 0) (ys.getD j 0) := by
  have hrow : (surfaceGrid f xs ys).getD j [] =
      List.map (fun xv => f xv (ys.getD j 0)) xs := by
    rw [surfaceGrid, List.getD_eq_getElem _ _ (by simpa using hj), List.getElem_map,
      List.getD_eq_getElem _ _ hj]
  rw [surfAt, hrow, List.getD_eq_getElem _ _ (by simpa using hi), List.getElem_map,
    List.getD_eq_getElem _ _ hi]

theorem surfaceGrid_length (f : ℚ → ℚ → ℚ) (xs ys : List ℚ) :
    (surfaceGrid f xs ys).length = ys.length := by
  simp [surfaceGrid]

theorem surfaceGrid_row_lengths (f : ℚ → ℚ → ℚ) (xs ys : List ℚ) :
    (surfaceGrid f xs ys).map List.length = List.replicate ys.length xs.length := by
  induction ys with
  | nil => rfl
  | cons yh yt ih => simpa [surfaceGrid, List.replicate_succ] using ih

/-- The eight samples of np.arange(-1.6, 2, 0.5) in cubic-to-elliptic-curve.py. -/
theorem x_points_eval :
    CTE.x_points = [-8/5, -11/10, -3/5, -1/10, 2/5, 9/10, 7/5, 19/10] := by
  rw [CTE.x_points, arange]
  rw [show Int.ceil (((2:ℚ) - (-8/5)) / (1/2)) = 8 by rw [Int.ceil_eq_iff]; norm_num]
  rw [show Int.toNat 8 = 8 from rfl]
  rw [show List.range 8 = [0,1,2,3,4,5,6,7] by decide]
  norm_num [List.map_cons, List.map_nil]

theorem npSqrt_of_nonneg {r : ℚ} (h : 0 ≤ r) : npSqrt r = some (Real.sqrt (r : ℝ)) := by
  rw [npSqrt, if_pos h]

theorem npSqrt_of_neg {r : ℚ} (h : r < 0) : npSqrt r = none := by
  rw [npSqrt, if_neg (not_le.mpr h)]

/-- One axis vector of np.ogrid[-bound:bound:100j]: 100 samples, both
endpoints hit, consecutive samples 2*bound/99 apart. -/
def gridVectorOK (v : List ℚ) (bound : ℚ) (i : ℕ) : Prop :=
  v.length = 100 ∧ v.getD 0 0 = -bound ∧ v.getD 99 0 = bound ∧
    v.getD (i+1) 0 - v.getD i 0 = 2 * bound / 99

/-- A broadcast evaluation surface of shape 100 x 100. -/
def surfaceOK (s : List (List ℚ)) : Prop :=
  s.length = 100 ∧ s.map List.length = List.replicate 100 100

theorem linspace_uniform (bound : ℚ) (i : ℕ) (hi : i < 99) :
    gridVectorOK (linspace (-bound) bound 100) bound i := by
  refine ⟨linspace_length _ _ _, ?_, ?_, ?_⟩
  · rw [linspace_getD _ _ _ _ (by norm_num)]; norm_num
  · rw [linspace_getD _ _ _ _ (by norm_num)]
    push_cast
    ring_nf
  · rw [linspace_getD _ _ _ _ (by omega), linspace_getD _ _ _ _ (by omega)]
    push_cast
    ring

theorem surfaceOK_surfaceGrid (f : ℚ → ℚ → ℚ) (xs ys : List ℚ)
    (hx : xs.length = 100) (hy : ys.length = 100) :
    surfaceOK (surfaceGrid f xs ys) :=
  ⟨by rw [surfaceGrid_length, hy], by rw [surfaceGrid_row_lengths, hx, hy]⟩

/-- tail occurs at the end of t. -/
def endsWithStr (t tail : String) : Prop := tail.data <:+ t.data

instance (t tail : String) : Decidable (endsWithStr t tail) :=
  inferInstanceAs (Decidable (tail.data <:+ t.data))

/-- A script's output calls persist the figure to exactly two paths, one
PNG then one SVG, with every savefig call before any plt.show call. -/
def persistsPair (evts : List OutputEvent) : Prop :=
  ∃ p q, savedPaths evts = [p, q] ∧ endsWithStr p ".png" ∧ endsWithStr q ".svg" ∧
    savesBeforeDisplays evts = true

/-- The hard-coded constants a script's numeric core depends on. -/
structure CoreInput where
  ca : ℚ
  cb : ℚ
  cxmax : ℚ
  cymax : ℚ
  cann : List ℚ

/-- The whole numeric core of a script as one pure function of its
constants: the two coordinate vectors, the residual surface, and the two
explicit-branch annotation marker lists. -/
noncomputable def numericCore (c : CoreInput) :
    List ℚ × List ℚ × List (List ℚ) × List (ℚ × Option ℝ) × List (ℚ × Option ℝ) :=
  (linspace (-c.cxmax) c.cxmax 100, linspace (-c.cymax) c.cymax 100,
    surfaceGrid (ellipticResidual c.ca c.cb) (linspace (-c.cxmax) c.cxmax 100)
      (linspace (-c.cymax) c.cymax 100),
    upperMarkers c.ca c.cb c.cann, lowerMarkers c.ca c.cb c.cann)

/-! Helper lemmas about substring containment, used for the title claims. -/

theorem containsStr_append_left (pre t sub : String) (h : containsStr t sub) :
    containsStr (pre ++ t) sub := by
  unfold containsStr at h ⊢
  rw [String.data_append]
  exact h.trans (List.suffix_append _ _).isInfix

theorem containsStr_append_right (t post sub : String) (h : containsStr t sub) :
    containsStr (t ++ post) sub := by
  unfold containsStr at h ⊢
  rw [String.data_append]
  exact h.trans (List.prefix_append _ _).isInfix

theorem containsStr_refl (s : String) : containsStr s s := List.infix_rfl

theorem axTerm_contains (q : ℤ) (hq : q ≠ 0) : containsStr (axTerm q) (toString q) := by
  rw [axTerm, if_pos hq]
  exact containsStr_append_right _ _ _ (containsStr_append_left _ _ _ (containsStr_refl _))

theorem axTermSpace_contains (q : ℤ) (hq : q ≠ 0) :
    containsStr (axTermSpace q) (toString q) := by
  rw [axTermSpace, if_pos hq]
  exact containsStr_append_right _ _ _ (containsStr_append_left _ _ _ (containsStr_refl _))

theorem constTerm_contains (r : ℤ) (hr : r ≠ 0) :
    containsStr (constTerm r) (toString r) := by
  rw [constTerm, if_pos hr]
  exact containsStr_append_left _ _ _ (containsStr_refl _)

theorem append_pm_ne_empty (pre post s : String) (hpre : pre.length ≠ 0) :
    (pre ++ s ++ post) ≠ "" := by
  intro h
  have hl := congrArg String.length h
  rw [String.length_append, String.length_append] at hl
  have h0 : "".length = 0 := rfl
  omega

theorem axTerm_empty_iff (q : ℤ) : axTerm q = "" ↔ q = 0 := by
  constructor
  · intro h
    by_contra hq
    rw [axTerm, if_pos hq] at h
    exact append_pm_ne_empty "- " "x" (toString q) (by decide) h
  · intro h
    rw [axTerm]
    simp [h]

theorem axTermSpace_empty_iff (q : ℤ) : axTermSpace q = "" ↔ q = 0 := by
  constructor
  · intro h
    by_contra hq
    rw [axTermSpace, if_pos hq] at h
    exact append_pm_ne_empty " " "x" (toString q) (by decide) h
  · intro h
    rw [axTermSpace]
    simp [h]

theorem constTerm_empty_iff (r : ℤ) : constTerm r = "" ↔ r = 0 := by
  constructor
  · intro h
    by_contra hr
    rw [constTerm, if_pos hr] at h
    have hl := congrArg String.length h
    rw [String.length_append] at hl
    have h2 : "- ".length = 2 := rfl
    have h0 : "".length = 0 := rfl
    omega
  · intro h
    rw [constTerm]
    simp [h]

/-! The claims. -/

/-- C1: in every script, every entry of the implicit-surface array equals
the residual y^2 - x^3 - a*x - b at the corresponding grid point, with a
and b the script's hard-coded coefficients (the grid script's sixteen
subplots are covered by quantifying over arbitrary coefficients). -/
theorem spec_c1_surface_entries_equal_residual (q r : ℚ) (i j : ℕ)
    (hi : i < 100) (hj : j < 100) :
    surfAt CTE.elliptic_curve i j
        = ellipticResidual (CTE.a : ℚ) (CTE.b : ℚ) (CTE.x.getD i 0) (CTE.y.getD j 0)
      ∧ surfAt PEC.elliptic_curve i j
        = ellipticResidual (PEC.a : ℚ) (PEC.b : ℚ) (PEC.x.getD i 0) (PEC.y.getD j 0)
      ∧ surfAt PA.elliptic_curve i j
        = ellipticResidual (PA.a : ℚ) (PA.b : ℚ) (PA.x.getD i 0) (PA.y.getD j 0)
      ∧ surfAt (GridEC.curve q r) i j
        = ellipticResidual q r (GridEC.x.getD i 0) (GridEC.y.getD j 0) := by
  refine ⟨?_, ?_, ?_, ?_⟩
  · exact surfAt_surfaceGrid _ _ _ _ _ (by simpa [CTE.x, linspace] using hi)
      (by simpa [CTE.y, linspace] using hj)
  · exact surfAt_surfaceGrid _ _ _ _ _ (by simpa [PEC.x, linspace] using hi)
      (by simpa [PEC.y, linspace] using hj)
  · exact surfAt_surfaceGrid _ _ _ _ _ (by simpa [PA.x, linspace] using hi)
      (by simpa [PA.y, linspace] using hj)
  · exact surfAt_surfaceGrid _ _ _ _ _ (by simpa [GridEC.x, linspace] using hi)
      (by simpa [GridEC.y, linspace] using hj)

/-- C1 witness at the lower-left corner of the cubic-to-elliptic grid. -/
theorem spec_c1_witness :
    surfAt CTE.elliptic_curve 0 0
      = ellipticResidual (CTE.a : ℚ) (CTE.b : ℚ) (CTE.x.getD 0 0) (CTE.y.getD 0 0) :=
  (spec_c1_surface_entries_equal_residual 0 0 0 0 (by decide) (by decide)).1

/-- C2: in every script both coordinate vectors hold exactly 100 uniformly
spaced samples spanning [-bound, bound] with both endpoints included, and
broadcasting combines them into a 100 x 100 evaluation surface. -/
theorem spec_c2_grid_vectors_uniform (i : ℕ) (hi : i < 99) :
    gridVectorOK CTE.x CTE.x_max i ∧ gridVectorOK CTE.y CTE.y_max i ∧
      gridVectorOK GridEC.x GridEC.x_max i ∧ gridVectorOK GridEC.y GridEC.y_max i ∧
      gridVectorOK PEC.x PEC.x_max i ∧ gridVectorOK PEC.y PEC.y_max i ∧
      gridVectorOK PA.x PA.x_max i ∧ gridVectorOK PA.y PA.y_max i ∧
      surfaceOK CTE.elliptic_curve ∧ surfaceOK PEC.elliptic_curve ∧
      surfaceOK PA.elliptic_curve ∧ ∀ q r : ℚ, surfaceOK (GridEC.curve q r) := by
  refine ⟨linspace_uniform _ _ hi, linspace_uniform _ _ hi, linspace_uniform _ _ hi,
    linspace_uniform _ _ hi, linspace_uniform _ _ hi, linspace_uniform _ _ hi,
    linspace_uniform _ _ hi, linspace_uniform _ _ hi, ?_, ?_, ?_, fun q r => ?_⟩ <;>
    exact surfaceOK_surfaceGrid _ _ _ (linspace_length _ _ _) (linspace_length _ _ _)

/-- C2 witness: the x vector of cubic-to-elliptic-curve.py at spacing
index 0. -/
theorem spec_c2_witness : gridVectorOK CTE.x CTE.x_max 0 :=
  (spec_c2_grid_vectors_uniform 0 (by decide)).1

/-- C3 counterexample: point-addition.py persists nothing -- both its
savefig calls are commented out -- so not every script saves a PNG/SVG
pair before displaying. -/
theorem spec_c3_counterexample : ¬ persistsPair PA.outputs := by
  intro hp
  obtain ⟨p, q, h, -⟩ := hp
  simp [PA.outputs, savedPaths] at h

/-- C3 amended: the three scripts other than point-addition.py persist the
finished figure to two fixed relative paths, a PNG then an SVG, before
displaying it; point-addition.py saves nothing and only displays. -/
theorem spec_c3_amended_persistence :
    persistsPair CTE.outputs ∧ persistsPair GridEC.outputs ∧ persistsPair PEC.outputs ∧
      savedPaths PA.outputs = [] ∧ savesBeforeDisplays PA.outputs = true := by
  refine ⟨⟨"docs/images/cubic-to-elliptic.png", "docs/images/cubic-to-elliptic.svg",
      by decide, by decide, by decide, by decide⟩,
    ⟨"docs/images/elliptic_curves_grid.png", "docs/images/elliptic_curves_grid.svg",
      by decide, by decide, by decide, by decide⟩,
    ⟨"docs/images/both_curves.png", "docs/images/both_curves.svg",
      by decide, by decide, by decide, by decide⟩, by decide, by decide⟩

/-- C4: wherever the radicand x^3 + a*x + b is nonnegative, the lower
explicit-branch marker is exactly the negation of the upper one: the two
branches y = plus/minus sqrt(x^3 + a*x + b) are reflections across y = 0. -/
theorem spec_c4_branches_reflect (q r xv : ℚ) (h : 0 ≤ radicand q r xv) :
    ∃ yv : ℝ, upperY q r xv = some yv ∧ lowerY q r xv = some (-yv) := by
  refine ⟨Real.sqrt ((radicand q r xv : ℚ) : ℝ), ?_, ?_⟩
  · rw [upperY, npSqrt_of_nonneg h]
  · rw [lowerY, npSqrt_of_nonneg h]
    rfl

/-- C4 witness at a = 0, b = 7, x = 1 (radicand 8). -/
theorem spec_c4_witness :
    ∃ yv : ℝ, upperY 0 7 1 = some yv ∧ lowerY 0 7 1 = some (-yv) :=
  spec_c4_branches_reflect 0 7 1 (by norm_num [radicand])

/-- C5: a negative radicand makes np.sqrt yield NaN (none), and the NaN
marker is carried into the annotation lists unchanged: the sample still
produces an entry, no entry is dropped, no exception interrupts the maps. -/
theorem spec_c5_nan_silently_propagates (q r xv : ℚ) (xs : List ℚ)
    (h : radicand q r xv < 0) (hx : xv ∈ xs) :
    npSqrt (radicand q r xv) = none ∧
      (xv, (none : Option ℝ)) ∈ upperMarkers q r xs ∧
      (xv, (none : Option ℝ)) ∈ lowerMarkers q r xs ∧
      (upperMarkers q r xs).length = xs.length ∧
      (lowerMarkers q r xs).length = xs.length := by
  have hnone := npSqrt_of_neg h
  refine ⟨hnone, ?_, ?_, by simp [upperMarkers], by simp [lowerMarkers]⟩
  · exact List.mem_map.mpr ⟨xv, hx, by simp [upperY, hnone]⟩
  · exact List.mem_map.mpr ⟨xv, hx, by simp [lowerY, hnone]⟩

/-- C5 witness at a = 0, b = 0, x = -1 (radicand -1). -/
theorem spec_c5_witness :
    npSqrt (radicand 0 0 (-1)) = none ∧
      ((-1 : ℚ), (none : Option ℝ)) ∈ upperMarkers 0 0 [-1] ∧
      ((-1 : ℚ), (none : Option ℝ)) ∈ lowerMarkers 0 0 [-1] ∧
      (upperMarkers 0 0 [-1]).length = [(-1 : ℚ)].length ∧
      (lowerMarkers 0 0 [-1]).length = [(-1 : ℚ)].length :=
  spec_c5_nan_silently_propagates 0 0 (-1) [-1] (by norm_num [radicand]) (by simp)

/-- C6: with a = 0, b = 7 the grid of cubic-to-elliptic-curve.py brackets
x in [-2, 4] and y in [-5, 5], and the sampled residual field takes both a
positive and a negative value, the discrete sign change from which the
contour extraction draws a non-empty zero contour. -/
theorem spec_c6_zero_contour_nonempty :
    (CTE.x.getD 0 0 ≤ -2 ∧ (4:ℚ) ≤ CTE.x.getD 99 0 ∧
      CTE.y.getD 0 0 ≤ -5 ∧ (5:ℚ) ≤ CTE.y.getD 99 0) ∧
      (∃ i j, i < 100 ∧ j < 100 ∧ 0 < surfAt CTE.elliptic_curve i j) ∧
      (∃ i j, i < 100 ∧ j < 100 ∧ surfAt CTE.elliptic_curve i j < 0) := by
  have hx0 : CTE.x.getD 0 0 = -4 := by
    rw [CTE.x, linspace_getD _ _ _ _ (by norm_num)]; norm_num [CTE.x_max]
  have hx99 : CTE.x.getD 99 0 = 4 := by
    rw [CTE.x, linspace_getD _ _ _ _ (by norm_num)]; norm_num [CTE.x_max]
  have hy0 : CTE.y.getD 0 0 = -15 := by
    rw [CTE.y, linspace_getD _ _ _ _ (by norm_num)]; norm_num [CTE.y_max]
  have hy99 : CTE.y.getD 99 0 = 15 := by
    rw [CTE.y, linspace_getD _ _ _ _ (by norm_num)]; norm_num [CTE.y_max]
  have hy50 : CTE.y.getD 50 0 = 5/33 := by
    rw [CTE.y, linspace_getD _ _ _ _ (by norm_num)]; norm_num [CTE.y_max]
  refine ⟨⟨by rw [hx0]; norm_num, by rw [hx99], by rw [hy0]; norm_num,
      by rw [hy99]; norm_num⟩,
    ⟨0, 0, by norm_num, by norm_num, ?_⟩, ⟨99, 50, by norm_num, by norm_num, ?_⟩⟩
  · rw [show surfAt CTE.elliptic_curve 0 0
        = ellipticResidual (CTE.a : ℚ) (CTE.b : ℚ) (CTE.x.getD 0 0) (CTE.y.getD 0 0) from
      surfAt_surfaceGrid _ _ _ _ _ (by simp [CTE.x, linspace]) (by simp [CTE.y, linspace]),
      hx0, hy0]
    norm_num [ellipticResidual, CTE.a, CTE.b]
  · rw [show surfAt CTE.elliptic_curve 99 50
        = ellipticResidual (CTE.a : ℚ) (CTE.b : ℚ) (CTE.x.getD 99 0) (CTE.y.getD 50 0) from
      surfAt_surfaceGrid _ _ _ _ _ (by simp [CTE.x, linspace]) (by simp [CTE.y, linspace]),
      hx99, hy50]
    norm_num [ellipticResidual, CTE.a, CTE.b]

/-- C7 counterexample: point-addition.py (a = -2, b = 2) sets only the
static title "Point addition", which contains neither coefficient as
text, so not every script composes a dynamically formatted equation
title. -/
theorem spec_c7_counterexample :
    ¬ ∃ t ∈ PA.titles, containsStr t (toString PA.a) ∧ containsStr t (toString PA.b) := by
  decide

/-- C7 amended: cubic-to-elliptic-curve.py and plot-elliptic-curve.py
compose dynamically formatted equation titles with the coefficient values
substituted as text, the ax term present exactly when a is nonzero and the
constant term present exactly when b is nonzero;
plot-elliptic-curve-grid.py substitutes b into plain per-column labels
without omission logic, and point-addition.py uses the static title
"Point addition". -/
theorem spec_c7_amended_titles (q r : ℤ) :
    (axTerm q = "" ↔ q = 0) ∧ (axTermSpace q = "" ↔ q = 0) ∧ (constTerm r = "" ↔ r = 0) ∧
      (q ≠ 0 → containsStr (CTE.eq_title_cubicF q r) (toString q)
        ∧ containsStr (CTE.eq_titleF q r) (toString q)
        ∧ containsStr (PEC.eq_title_cubicF q r) (toString q)
        ∧ containsStr (PEC.eq_titleF q r) (toString q)) ∧
      (r ≠ 0 → containsStr (CTE.eq_title_cubicF q r) (toString r)
        ∧ containsStr (CTE.eq_titleF q r) (toString r)
        ∧ containsStr (PEC.eq_title_cubicF q r) (toString r)
        ∧ containsStr (PEC.eq_titleF q r) (toString r)) ∧
      CTE.titles = ["$" ++ CTE.eq_title_cubicF CTE.a CTE.b ++ "$",
        "$" ++ CTE.eq_titleF CTE.a CTE.b ++ "$"] ∧
      PEC.titles = ["$" ++ PEC.eq_title_cubicF PEC.a PEC.b ++ "$",
        "$" ++ PEC.eq_titleF PEC.a PEC.b ++ "$"] ∧
      GridEC.titles = GridEC.b_values.map GridEC.colTitle ∧
      PA.titles = ["Point addition"] := by
  refine ⟨axTerm_empty_iff q, axTermSpace_empty_iff q, constTerm_empty_iff r,
    fun hq => ⟨?_, ?_, ?_, ?_⟩, fun hr => ⟨?_, ?_, ?_, ?_⟩, rfl, rfl, rfl, rfl⟩
  · exact containsStr_append_right _ _ _ (containsStr_append_right _ _ _
      (containsStr_append_left _ _ _ (axTerm_contains q hq)))
  · exact containsStr_append_right _ _ _ (containsStr_append_right _ _ _
      (containsStr_append_left _ _ _ (axTermSpace_contains q hq)))
  · exact containsStr_append_right _ _ _ (containsStr_append_right _ _ _
      (containsStr_append_left _ _ _ (axTerm_contains q hq)))
  · exact containsStr_append_right _ _ _ (containsStr_append_right _ _ _
      (containsStr_append_left _ _ _ (axTerm_contains q hq)))
  · exact containsStr_append_left _ _ _ (constTerm_contains r hr)
  · exact containsStr_append_left _ _ _ (constTerm_contains r hr)
  · exact containsStr_append_left _ _ _ (constTerm_contains r hr)
  · exact containsStr_append_left _ _ _ (constTerm_contains r hr)

/-- C8: the numeric core (coordinate vectors, residual surface, annotation
markers) is one pure function of the hard-coded constants, so two runs on
equal constants produce equal results; instantiated, the core of the CTE
constants is exactly that script's artifacts. -/
theorem spec_c8_numeric_core_deterministic (c1 c2 : CoreInput) (h : c1 = c2) :
    numericCore c1 = numericCore c2 ∧
      numericCore ⟨(CTE.a : ℚ), (CTE.b : ℚ), CTE.x_max, CTE.y_max, CTE.x_points⟩
        = (CTE.x, CTE.y, CTE.elliptic_curve,
            upperMarkers (CTE.a : ℚ) (CTE.b : ℚ) CTE.x_points,
            lowerMarkers (CTE.a : ℚ) (CTE.b : ℚ) CTE.x_points) :=
  ⟨by rw [h], rfl⟩

/-- C8 witness: two runs on the cubic-to-elliptic constants agree. -/
theorem spec_c8_witness :
    numericCore ⟨0, 7, 4, 15, []⟩ = numericCore ⟨0, 7, 4, 15, []⟩ :=
  (spec_c8_numeric_core_deterministic ⟨0, 7, 4, 15, []⟩ ⟨0, 7, 4, 15, []⟩ rfl).1

/-- C9: the elliptic residual is symmetric in y, since y enters only as
y^2, and the two cubic branch arrays are mirror images of each other:
cubic_curve(x, -y) = cubic_curve_neg(x, y) in both scripts defining them. -/
theorem spec_c9_residual_symmetric_in_y (q r xv yv : ℚ) :
    ellipticResidual q r xv yv = ellipticResidual q r xv (-yv) ∧
      CTE.cubic_curve q r xv (-yv) = CTE.cubic_curve_neg q r xv yv ∧
      PEC.cubic_curve q r xv (-yv) = PEC.cubic_curve_neg q r xv yv := by
  refine ⟨?_, ?_, ?_⟩ <;>
    simp only [ellipticResidual, CTE.cubic_curve, CTE.cubic_curve_neg,
      PEC.cubic_curve, PEC.cubic_curve_neg] <;> ring

/-- C10: under the hard-coded constants every radicand fed to np.sqrt is
strictly positive -- x^3 + 7 > 0 on the eight samples of np.arange(-1.6,
2, 0.5), and the point-addition radicands are 3 and 6 -- so no NaN arises
and every annotation marker carries a real y-value. -/
theorem spec_c10_radicands_positive :
    (∀ xv ∈ CTE.x_points, 0 < radicand (CTE.a : ℚ) (CTE.b : ℚ) xv) ∧
      (∀ m ∈ upperMarkers (CTE.a : ℚ) (CTE.b : ℚ) CTE.x_points, m.2.isSome = true) ∧
      (∀ m ∈ lowerMarkers (CTE.a : ℚ) (CTE.b : ℚ) CTE.x_points, m.2.isSome = true) ∧
      radicand (PA.a : ℚ) (PA.b : ℚ) (-1) = 3 ∧ radicand (PA.a : ℚ) (PA.b : ℚ) 2 = 6 ∧
      PA.P.2.isSome = true ∧ PA.Q.2.isSome = true := by
  have hpos : ∀ xv ∈ CTE.x_points, 0 < radicand (CTE.a : ℚ) (CTE.b : ℚ) xv := by
    rw [x_points_eval]
    intro xv hxv
    fin_cases hxv <;> norm_num [radicand, CTE.a, CTE.b]
  have h3 : radicand (PA.a : ℚ) (PA.b : ℚ) (-1) = 3 := by
    norm_num [radicand, PA.a, PA.b]
  have h6 : radicand (PA.a : ℚ) (PA.b : ℚ) 2 = 6 := by
    norm_num [radicand, PA.a, PA.b]
  refine ⟨hpos, ?_, ?_, h3, h6, ?_, ?_⟩
  · intro m hm
    obtain ⟨xv, hxv, rfl⟩ := List.mem_map.mp hm
    simp [upperY, npSqrt_of_nonneg (le_of_lt (hpos xv hxv))]
  · intro m hm
    obtain ⟨xv, hxv, rfl⟩ := List.mem_map.mp hm
    simp [lowerY, npSqrt_of_nonneg (le_of_lt (hpos xv hxv))]
  · simp [PA.P,
      npSqrt_of_nonneg (by rw [h3]; norm_num : (0:ℚ) ≤ radicand (PA.a : ℚ) (PA.b : ℚ) (-1))]
  · simp [PA.Q,
      npSqrt_of_nonneg (by rw [h6]; norm_num : (0:ℚ) ≤ radicand (PA.a : ℚ) (PA.b : ℚ) 2)]

end CurvePlots
